import Mathlib

/-!
Verification of the resumable-upload retry driver and caption helpers from
`upload_with_captions.py`.

The Python code is shallowly embedded: the sequence of outcomes produced by
successive `insert_request.next_chunk()` calls is supplied as a list
(`ChunkOutcome`), the process-wide random source `random.random()` is supplied
as a stream of rationals, and the observable effects of one invocation of
`resumable_upload` (number of chunk attempts, sleep events with their computed
durations, reported video ids) are collected in a `Trace` next to the terminal
`UploadResult`.
-/

/-- `MAX_RETRIES = 10` from the source. -/
def MAX_RETRIES : Nat := 10

/-- `RETRIABLE_STATUS_CODES = [500, 502, 503, 504]` from the source. -/
def RETRIABLE_STATUS_CODES : List Nat := [500, 502, 503, 504]

/-- A terminal API response, modelled as the string-keyed dictionary the code
inspects with `'id' in response` and `response['id']`. -/
abbrev Response := List (String × String)

/-- Python `'id' in response`. -/
def hasId (resp : Response) : Bool :=
  (resp.lookup "id").isSome

/-- Python `response['id']` (defined only when `hasId`). -/
def idOf (resp : Response) : String :=
  (resp.lookup "id").getD ""

/-- The message stored in the local variable `error` by the two retriable
`except` arms of `resumable_upload`. -/
inductive ErrMsg where
  | http (status : Nat)
  | transport
deriving DecidableEq, Repr

/-- One behaviour of a call to `insert_request.next_chunk()`:
a terminal response, a progress step (`response` stays `None`),
an `HttpError` carrying `e.resp.status`, or one of the
`RETRIABLE_EXCEPTIONS` (`httplib2.HttpLib2Error`, `IOError`). -/
inductive ChunkOutcome where
  | success (resp : Response)
  | progress
  | httpError (status : Nat)
  | transportError
deriving DecidableEq, Repr

/-- An outcome that `resumable_upload` treats as transient-retriable. -/
def transientOutcome : ChunkOutcome → Bool
  | ChunkOutcome.httpError s => s ∈ RETRIABLE_STATUS_CODES
  | ChunkOutcome.transportError => true
  | _ => false

/-- One `time.sleep` performed by the backoff branch: the value of `retry`
when the sleep happened and the computed `sleep_seconds`. -/
structure SleepEvent where
  retry : Nat
  seconds : ℚ
deriving DecidableEq, Repr

/-- How one invocation of `resumable_upload` ends. -/
inductive UploadResult where
  /-- `return response` after the `while` loop. -/
  | returned (resp : Response)
  /-- `exit("The upload failed with an unexpected response: ...")`. -/
  | exitUnexpected (resp : Response)
  /-- `exit("No longer attempting to retry.")`. -/
  | exitRetriesExhausted
  /-- a non-retriable `HttpError` re-`raise`d out of the function. -/
  | raised (status : Nat)
  /-- modelling artifact: the supplied outcome list ended while the loop
  would have called `next_chunk()` again. -/
  | noMoreAttempts
deriving DecidableEq, Repr

/-- Observable effects of one invocation: number of `next_chunk()` calls,
the sleeps in order, and the video ids reported by the success `print`. -/
structure Trace where
  attempts : Nat
  sleeps : List SleepEvent
  reported : List String
deriving DecidableEq, Repr

/-- Outcome of one iteration of the `while` body: either the loop/process
ends, or the loop continues with the (never reset) `error` and the
incremented `retry`. -/
inductive StepResult where
  | done (r : UploadResult) (sleeps : List SleepEvent) (reported : List String)
  | next (error : Option ErrMsg) (retry : Nat) (sleeps : List SleepEvent)
      (reported : List String)
deriving DecidableEq, Repr

/-- The code after the `try` block: the `if error is not None:` backoff
branch followed by the `while response is None` test. `response` and
`error` are their values at the end of the `try`; `rv` is the value
`random.random()` would return if a sleep happens. -/
def afterTry (response : Option Response) (error : Option ErrMsg) (retry : Nat)
    (rv : ℚ) (reported : List String) : StepResult :=
  match error with
  | none =>
      match response with
      | some resp => StepResult.done (UploadResult.returned resp) [] reported
      | none => StepResult.next none retry [] reported
  | some msg =>
      if MAX_RETRIES < retry + 1 then
        StepResult.done UploadResult.exitRetriesExhausted [] reported
      else
        let sl : SleepEvent := ⟨retry + 1, rv * 2 ^ (retry + 1)⟩
        match response with
        | some resp => StepResult.done (UploadResult.returned resp) [sl] reported
        | none => StepResult.next (some msg) (retry + 1) [sl] reported

/-- One full iteration of the `while` body of `resumable_upload`, given the
behaviour of this iteration's `next_chunk()` call. -/
def stepIter (a : ChunkOutcome) (error : Option ErrMsg) (retry : Nat)
    (rv : ℚ) : StepResult :=
  match a with
  | ChunkOutcome.success resp =>
      if hasId resp then
        afterTry (some resp) error retry rv [idOf resp]
      else
        StepResult.done (UploadResult.exitUnexpected resp) [] []
  | ChunkOutcome.progress =>
      afterTry none error retry rv []
  | ChunkOutcome.httpError s =>
      if s ∈ RETRIABLE_STATUS_CODES then
        afterTry none (some (ErrMsg.http s)) retry rv []
      else
        StepResult.done (UploadResult.raised s) [] []
  | ChunkOutcome.transportError =>
      afterTry none (some ErrMsg.transport) retry rv []

/-- The `while response is None` loop of `resumable_upload`, driven by the
list of behaviours of successive `next_chunk()` calls; `rand k` is the value
of the `k`-th call to `random.random()`. -/
def resumable_upload_go (rand : Nat → ℚ) :
    List ChunkOutcome → Option ErrMsg → Nat → Nat → UploadResult × Trace
  | [], _, _, _ => (UploadResult.noMoreAttempts, ⟨0, [], []⟩)
  | a :: rest, error, retry, k =>
      match stepIter a error retry (rand k) with
      | StepResult.done r sl rep => (r, ⟨1, sl, rep⟩)
      | StepResult.next e r sl rep =>
          let p := resumable_upload_go rand rest e r (k + sl.length)
          (p.1, ⟨p.2.attempts + 1, sl ++ p.2.sleeps, rep ++ p.2.reported⟩)

/-- `resumable_upload(insert_request)`: starts with `response = None`,
`error = None`, `retry = 0`. -/
def resumable_upload (attempts : List ChunkOutcome) (rand : Nat → ℚ) :
    UploadResult × Trace :=
  resumable_upload_go rand attempts none 0 0

/-- Python `str.split(sep, maxsplit)` restricted to a single-character
separator, on the character list of the string: at most `n` splits are made,
the remainder is kept whole. -/
def splitLimit (sep : Char) (n : Nat) (cs : List Char) (acc : List Char) :
    List (List Char) :=
  match n, cs with
  | _, [] => [acc.reverse]
  | 0, rest => [acc.reverse ++ rest]
  | n + 1, c :: rest =>
      if c = sep then acc.reverse :: splitLimit sep n rest []
      else splitLimit sep (n + 1) rest (c :: acc)

/-- `parse_caption_argument(cap_arg)`: `cap_arg.split(':', 2)`, then a
2-element result is `language:filepath` with the track name defaulted to
`lang_code.upper()`, a 3-element result is `language:name:filepath`, and
anything else is `None`. -/
def parse_caption_argument (cap_arg : String) :
    Option (String × String × String) :=
  let parts := (splitLimit ':' 2 cap_arg.data []).map fun l => String.mk l
  match parts with
  | [lang_code, file_path] =>
      some (lang_code, String.mk (lang_code.data.map Char.toUpper), file_path)
  | [lang_code, track_name, file_path] => some (lang_code, track_name, file_path)
  | _ => none

/-- The caption batch loop of `main` (`for cap_arg in args.captions:`),
with the two external effects supplied as oracles: `fileExists` is
`os.path.exists` and `uploadOk lang name path` is the boolean result of
`upload_caption(youtube, video_id, lang, name, path)`. Returns the
`(success_count, total_count)` pair printed by the final summary line. -/
def captionBatch (fileExists : String → Bool)
    (uploadOk : String → String → String → Bool)
    (captions : List String) : Nat × Nat :=
  (captions.foldl
    (fun success_count cap_arg =>
      match parse_caption_argument cap_arg with
      | none => success_count
      | some (lang_code, track_name, file_path) =>
          if fileExists file_path then
            if uploadOk lang_code track_name file_path then success_count + 1
            else success_count
          else success_count)
    0,
   captions.length)

/-- A Python exception escaping the body of `upload_caption`'s `try` block:
an `apiclient.errors.HttpError` or anything else (`except Exception`), e.g.
a missing local file raised by `MediaFileUpload`. -/
inductive PyExc where
  | httpError (status : Nat) (content : String)
  | other (msg : String)
deriving DecidableEq, Repr

/-- The caption-insert API response: the `snippet` sub-dictionary (if the
key is present) and the `id` value (if present). -/
structure CaptionResponse where
  snippet : Option (List (String × String))
  id : Option String
deriving DecidableEq, Repr

/-- `upload_caption(youtube, video_id, language, track_name, file_path)`,
with building and executing the insert request modelled as the oracle
`attempt` (either the response of `insert_request.execute()` or the
exception the body raised). After a successful execute the code reads
`response['snippet']['name']` and `response['id']`; a missing key raises
`KeyError` inside the `try`, landing in `except Exception` and returning
`False`, as both `except` arms do. -/
def upload_caption (attempt : Except PyExc CaptionResponse) : Bool :=
  match attempt with
  | Except.error (PyExc.httpError _ _) => false
  | Except.error (PyExc.other _) => false
  | Except.ok resp =>
      match resp.snippet.bind (fun sn => sn.lookup "name"), resp.id with
      | some _, some _ => true
      | _, _ => false

/-- The per-item success test implicitly computed by the caption batch loop:
the argument parses, the file exists, and the upload reports success. -/
def captionSuccess (fileExists : String → Bool)
    (uploadOk : String → String → String → Bool) (cap_arg : String) : Bool :=
  match parse_caption_argument cap_arg with
  | none => false
  | some (lang_code, track_name, file_path) =>
      fileExists file_path && uploadOk lang_code track_name file_path

/-- The sleep events of one iteration of the `while` body. -/
def StepResult.sleepEvents : StepResult → List SleepEvent
  | StepResult.done _ sl _ => sl
  | StepResult.next _ _ sl _ => sl

/-! ## Helper lemmas -/

/-- `splitLimit` always produces at least one part. -/
lemma splitLimit_length_pos (sep : Char) :
    ∀ (cs : List Char) (n : Nat) (acc : List Char),
      1 ≤ (splitLimit sep n cs acc).length := by
  intro cs
  induction cs with
  | nil => intro n acc; cases n <;> simp [splitLimit]
  | cons c rest ih =>
      intro n acc
      cases n with
      | zero => simp [splitLimit]
      | succ m =>
          by_cases hc : c = sep
          · simp [splitLimit, hc]
          · simp only [splitLimit, if_neg hc]
            exact ih (m + 1) (c :: acc)

/-- `splitLimit` with at most `n` splits produces at most `n + 1` parts. -/
lemma splitLimit_length_le (sep : Char) :
    ∀ (cs : List Char) (n : Nat) (acc : List Char),
      (splitLimit sep n cs acc).length ≤ n + 1 := by
  intro cs
  induction cs with
  | nil => intro n acc; cases n <;> simp [splitLimit]
  | cons c rest ih =>
      intro n acc
      cases n with
      | zero => simp [splitLimit]
      | succ m =>
          by_cases hc : c = sep
          · simp only [splitLimit, if_pos hc, List.length_cons]
            have := ih m []
            omega
          · simp only [splitLimit, if_neg hc]
            exact ih (m + 1) (c :: acc)

/-- If the separator occurs and at least one split is allowed, `splitLimit`
produces at least two parts. -/
lemma splitLimit_length_two_le (sep : Char) :
    ∀ (cs : List Char) (n : Nat) (acc : List Char), sep ∈ cs →
      2 ≤ (splitLimit sep (n + 1) cs acc).length := by
  intro cs
  induction cs with
  | nil => intro n acc h; simp at h
  | cons c rest ih =>
      intro n acc h
      by_cases hc : c = sep
      · simp only [splitLimit, if_pos hc, List.length_cons]
        have := splitLimit_length_pos sep rest n []
        omega
      · simp only [splitLimit, if_neg hc]
        have hmem : sep ∈ rest := by
          rcases List.mem_cons.mp h with h1 | h1
          · exact absurd h1.symm hc
          · exact h1
        exact ih n (c :: acc) hmem

/-- Any argument containing a colon parses to a triple. -/
lemma parse_caption_argument_isSome (s : String) (h : ':' ∈ s.data) :
    (parse_caption_argument s).isSome = true := by
  unfold parse_caption_argument
  have h2 : 2 ≤ ((splitLimit ':' 2 s.data []).map fun l => String.mk l).length := by
    rw [List.length_map]
    exact splitLimit_length_two_le ':' s.data 1 [] h
  have h3 : ((splitLimit ':' 2 s.data []).map fun l => String.mk l).length ≤ 3 := by
    rw [List.length_map]
    exact splitLimit_length_le ':' s.data 2 []
  have hcases : ((splitLimit ':' 2 s.data []).map fun l => String.mk l).length = 2 ∨
      ((splitLimit ':' 2 s.data []).map fun l => String.mk l).length = 3 := by omega
  rcases hcases with hl | hl
  · obtain ⟨a, b, hab⟩ := List.length_eq_two.mp hl
    rw [hab]
    simp
  · obtain ⟨a, b, c, habc⟩ := List.length_eq_three.mp hl
    rw [habc]
    simp

/-- The body of the caption batch fold, expressed through `captionSuccess`. -/
lemma captionStep_eq (fe : String → Bool) (up : String → String → String → Bool)
    (n : Nat) (c : String) :
    (match parse_caption_argument c with
     | none => n
     | some (lang_code, track_name, file_path) =>
         if fe file_path then
           if up lang_code track_name file_path then n + 1 else n
         else n) =
    if captionSuccess fe up c then n + 1 else n := by
  unfold captionSuccess
  rcases parse_caption_argument c with _ | ⟨l, t, p⟩
  · simp
  · by_cases hf : fe p <;> by_cases hu : up l t p <;> simp [hf, hu]

/-- The caption batch fold counts exactly the entries satisfying
`captionSuccess`, independently of the accumulator. -/
lemma captionBatch_foldl_count (fe : String → Bool)
    (up : String → String → String → Bool) :
    ∀ (caps : List String) (n : Nat),
      caps.foldl
        (fun success_count cap_arg =>
          match parse_caption_argument cap_arg with
          | none => success_count
          | some (lang_code, track_name, file_path) =>
              if fe file_path then
                if up lang_code track_name file_path then success_count + 1
                else success_count
              else success_count)
        n = n + caps.countP (captionSuccess fe up) := by
  intro caps
  induction caps with
  | nil => intro n; simp
  | cons c rest ih =>
      intro n
      rw [List.foldl_cons, List.countP_cons]
      show List.foldl _
        (match parse_caption_argument c with
         | none => n
         | some (lang_code, track_name, file_path) =>
             if fe file_path then
               if up lang_code track_name file_path then n + 1 else n
             else n) rest = _
      rw [captionStep_eq fe up n c]
      by_cases hs : captionSuccess fe up c
      · rw [if_pos hs, if_pos hs, ih (n + 1)]
        omega
      · rw [if_neg hs, if_neg hs, ih n]
        omega

/-- When the backoff branch runs with the error variable set, the
continuation state still carries a set error. -/
lemma afterTry_next_error (response : Option Response) (m : ErrMsg)
    (retry : Nat) (rv : ℚ) (rep : List String) (e : Option ErrMsg) (r : Nat)
    (sl : List SleepEvent) (rep2 : List String)
    (h : afterTry response (some m) retry rv rep =
      StepResult.next e r sl rep2) : e = some m := by
  unfold afterTry at h
  by_cases hr : MAX_RETRIES < retry + 1
  · simp [hr] at h
  · cases response with
    | none =>
        simp only [if_neg hr] at h
        exact (StepResult.next.injEq _ _ _ _ _ _ _ _ ▸ h).1.symm
    | some resp => simp [hr] at h

/-- If every supplied outcome is transient and enough of them remain, the
loop exits fatally after consuming exactly `MAX_RETRIES + 1 - retry` more
attempts. -/
lemma resumable_upload_go_transient (rand : Nat → ℚ) :
    ∀ (l : List ChunkOutcome), (∀ a ∈ l, transientOutcome a = true) →
      ∀ (e : Option ErrMsg) (retry k : Nat), retry ≤ MAX_RETRIES →
        MAX_RETRIES + 1 ≤ l.length + retry →
        (resumable_upload_go rand l e retry k).1 =
          UploadResult.exitRetriesExhausted ∧
        (resumable_upload_go rand l e retry k).2.attempts =
          MAX_RETRIES + 1 - retry := by
  intro l
  induction l with
  | nil =>
      intro _ e retry k h1 h2
      simp only [List.length_nil] at h2
      exact absurd h2 (by omega)
  | cons a rest ih =>
      intro h e retry k h1 h2
      have ha := h a (List.mem_cons_self a rest)
      have hrest : ∀ x ∈ rest, transientOutcome x = true :=
        fun x hx => h x (List.mem_cons_of_mem a hx)
      have hlen : MAX_RETRIES + 1 ≤ rest.length + (retry + 1) := by
        simp only [List.length_cons] at h2
        omega
      cases a with
      | success resp => simp [transientOutcome] at ha
      | progress => simp [transientOutcome] at ha
      | httpError s =>
          have hs : s ∈ RETRIABLE_STATUS_CODES := by
            simpa [transientOutcome] using ha
          by_cases hr : MAX_RETRIES < retry + 1
          · have hstep : stepIter (ChunkOutcome.httpError s) e retry (rand k) =
                StepResult.done UploadResult.exitRetriesExhausted [] [] := by
              simp [stepIter, afterTry, hs, hr]
            simp only [resumable_upload_go, hstep]
            refine ⟨trivial, ?_⟩
            omega
          · have hstep : stepIter (ChunkOutcome.httpError s) e retry (rand k) =
                StepResult.next (some (ErrMsg.http s)) (retry + 1)
                  [⟨retry + 1, rand k * 2 ^ (retry + 1)⟩] [] := by
              simp [stepIter, afterTry, hs, hr]
            have hih := ih hrest (some (ErrMsg.http s)) (retry + 1) (k + 1)
              (by omega) hlen
            simp only [resumable_upload_go, hstep, List.length_cons,
              List.length_nil]
            refine ⟨hih.1, ?_⟩
            simp only [hih.2]
            omega
      | transportError =>
          by_cases hr : MAX_RETRIES < retry + 1
          · have hstep : stepIter ChunkOutcome.transportError e retry (rand k) =
                StepResult.done UploadResult.exitRetriesExhausted [] [] := by
              simp [stepIter, afterTry, hr]
            simp only [resumable_upload_go, hstep]
            refine ⟨trivial, ?_⟩
            omega
          · have hstep : stepIter ChunkOutcome.transportError e retry (rand k) =
                StepResult.next (some ErrMsg.transport) (retry + 1)
                  [⟨retry + 1, rand k * 2 ^ (retry + 1)⟩] [] := by
              simp [stepIter, afterTry, hr]
            have hih := ih hrest (some ErrMsg.transport) (retry + 1) (k + 1)
              (by omega) hlen
            simp only [resumable_upload_go, hstep, List.length_cons,
              List.length_nil]
            refine ⟨hih.1, ?_⟩
            simp only [hih.2]
            omega

/-- Every sleep event produced by the backoff branch has a retry count in
`[1, MAX_RETRIES]` and a duration in `[0, 2 ^ retry)`, given a random value
in `[0, 1)`. -/
lemma afterTry_sleep_bound (response : Option Response) (error : Option ErrMsg)
    (retry : Nat) (rv : ℚ) (rep : List String) (h0 : 0 ≤ rv) (h1 : rv < 1) :
    ∀ sl ∈ (afterTry response error retry rv rep).sleepEvents,
      1 ≤ sl.retry ∧ sl.retry ≤ MAX_RETRIES ∧
      0 ≤ sl.seconds ∧ sl.seconds < 2 ^ sl.retry := by
  unfold afterTry
  have hpow : (0 : ℚ) < 2 ^ (retry + 1) := by positivity
  have hmul : rv * 2 ^ (retry + 1) < 2 ^ (retry + 1) := by
    calc rv * 2 ^ (retry + 1) < 1 * 2 ^ (retry + 1) :=
          mul_lt_mul_of_pos_right h1 hpow
      _ = 2 ^ (retry + 1) := one_mul _
  cases error with
  | none => cases response <;> simp [StepResult.sleepEvents]
  | some m =>
      by_cases hr : MAX_RETRIES < retry + 1
      · simp [hr, StepResult.sleepEvents]
      · cases response with
        | none =>
            simp only [if_neg hr, StepResult.sleepEvents, List.mem_singleton]
            rintro sl rfl
            exact ⟨Nat.succ_le_succ (Nat.zero_le retry),
              show retry + 1 ≤ MAX_RETRIES by omega,
              mul_nonneg h0 (le_of_lt hpow), hmul⟩
        | some resp =>
            simp only [if_neg hr, StepResult.sleepEvents, List.mem_singleton]
            rintro sl rfl
            exact ⟨Nat.succ_le_succ (Nat.zero_le retry),
              show retry + 1 ≤ MAX_RETRIES by omega,
              mul_nonneg h0 (le_of_lt hpow), hmul⟩

/-- Sleep bound for one full iteration of the `while` body. -/
lemma stepIter_sleep_bound (a : ChunkOutcome) (error : Option ErrMsg)
    (retry : Nat) (rv : ℚ) (h0 : 0 ≤ rv) (h1 : rv < 1) :
    ∀ sl ∈ (stepIter a error retry rv).sleepEvents,
      1 ≤ sl.retry ∧ sl.retry ≤ MAX_RETRIES ∧
      0 ≤ sl.seconds ∧ sl.seconds < 2 ^ sl.retry := by
  cases a with
  | success resp =>
      by_cases hid : hasId resp
      · simp only [stepIter, hid, if_true]
        exact afterTry_sleep_bound _ _ _ _ _ h0 h1
      · simp [stepIter, hid, StepResult.sleepEvents]
  | progress =>
      simp only [stepIter]
      exact afterTry_sleep_bound _ _ _ _ _ h0 h1
  | httpError s =>
      by_cases hs : s ∈ RETRIABLE_STATUS_CODES
      · simp only [stepIter, if_pos hs]
        exact afterTry_sleep_bound _ _ _ _ _ h0 h1
      · simp [stepIter, hs, StepResult.sleepEvents]
  | transportError =>
      simp only [stepIter]
      exact afterTry_sleep_bound _ _ _ _ _ h0 h1

/-- Sleep bound for the whole loop. -/
lemma resumable_upload_go_sleep_bound (rand : Nat → ℚ)
    (hrand : ∀ j, 0 ≤ rand j ∧ rand j < 1) :
    ∀ (l : List ChunkOutcome) (e : Option ErrMsg) (retry k : Nat),
      ∀ sl ∈ (resumable_upload_go rand l e retry k).2.sleeps,
        1 ≤ sl.retry ∧ sl.retry ≤ MAX_RETRIES ∧
        0 ≤ sl.seconds ∧ sl.seconds < 2 ^ sl.retry := by
  intro l
  induction l with
  | nil => simp [resumable_upload_go]
  | cons a rest ih =>
      intro e retry k sl hsl
      rcases hstep : stepIter a e retry (rand k) with ⟨r, sl2, rep⟩ |
        ⟨e2, r2, sl2, rep⟩
      · simp only [resumable_upload_go, hstep] at hsl
        have : sl ∈ (stepIter a e retry (rand k)).sleepEvents := by
          rw [hstep]
          exact hsl
        exact stepIter_sleep_bound a e retry (rand k) (hrand k).1 (hrand k).2
          sl this
      · simp only [resumable_upload_go, hstep] at hsl
        rcases List.mem_append.mp hsl with hmem | hmem
        · have : sl ∈ (stepIter a e retry (rand k)).sleepEvents := by
            rw [hstep]
            exact hmem
          exact stepIter_sleep_bound a e retry (rand k) (hrand k).1 (hrand k).2
            sl this
        · exact ih e2 r2 (k + sl2.length) sl hmem

/-! ## Claim theorems -/

/-- C1 (code-bug evidence): on the chunk-attempt sequence
[HttpError 503, HttpError 503, success-with-id] the driver performs THREE
sleeps, with caps 2^1, 2^2 and 2^3 — the third after reporting the returned
identifier — before returning the success response, because the local
`error` variable is never reset. The specified behaviour (sleep exactly
twice, caps 2^1 then 2^2, then return) is violated by the code. -/
theorem resumable_upload_sleeps_thrice_on_two_503s :
    resumable_upload
        [ChunkOutcome.httpError 503, ChunkOutcome.httpError 503,
         ChunkOutcome.success [("id", "vid123")]] (fun _ => (1:ℚ)/2) =
      (UploadResult.returned [("id", "vid123")],
       ⟨3, [⟨1, (1:ℚ)/2 * 2 ^ 1⟩, ⟨2, (1:ℚ)/2 * 2 ^ 2⟩, ⟨3, (1:ℚ)/2 * 2 ^ 3⟩],
        ["vid123"]⟩) := rfl

/-- C2: once `error` is set it is never reset (every continuation state out
of an iteration that began with `error` set still has it set); with `error`
set, a progress iteration and even a success-with-id iteration still run the
backoff branch, incrementing `retry` and sleeping; if the success arrives
when `retry = MAX_RETRIES`, the post-success increment exceeds
`MAX_RETRIES` and the function exits fatally despite having reported the
uploaded id; end to end, `MAX_RETRIES` transient failures followed by a
success-with-id yield a fatal retries-exhausted exit with the id reported. -/
theorem error_never_reset_success_still_backs_off :
    (∀ (a : ChunkOutcome) (m : ErrMsg) (retry : Nat) (rv : ℚ)
        (e : Option ErrMsg) (r : Nat) (sl : List SleepEvent)
        (rep : List String),
        stepIter a (some m) retry rv = StepResult.next e r sl rep →
        e.isSome = true) ∧
    (∀ (m : ErrMsg) (retry : Nat) (rv : ℚ), retry < MAX_RETRIES →
        stepIter ChunkOutcome.progress (some m) retry rv =
          StepResult.next (some m) (retry + 1)
            [⟨retry + 1, rv * 2 ^ (retry + 1)⟩] []) ∧
    (∀ (resp : Response) (m : ErrMsg) (retry : Nat) (rv : ℚ),
        hasId resp = true → retry < MAX_RETRIES →
        stepIter (ChunkOutcome.success resp) (some m) retry rv =
          StepResult.done (UploadResult.returned resp)
            [⟨retry + 1, rv * 2 ^ (retry + 1)⟩] [idOf resp]) ∧
    (∀ (resp : Response) (m : ErrMsg) (rv : ℚ), hasId resp = true →
        stepIter (ChunkOutcome.success resp) (some m) MAX_RETRIES rv =
          StepResult.done UploadResult.exitRetriesExhausted [] [idOf resp]) ∧
    (∀ rand : Nat → ℚ,
        (resumable_upload (List.replicate MAX_RETRIES
            ChunkOutcome.transportError ++
          [ChunkOutcome.success [("id", "vid456")]]) rand).1 =
          UploadResult.exitRetriesExhausted ∧
        (resumable_upload (List.replicate MAX_RETRIES
            ChunkOutcome.transportError ++
          [ChunkOutcome.success [("id", "vid456")]]) rand).2.reported =
          ["vid456"] ∧
        (resumable_upload (List.replicate MAX_RETRIES
            ChunkOutcome.transportError ++
          [ChunkOutcome.success [("id", "vid456")]]) rand).2.attempts =
          MAX_RETRIES + 1) := by
  refine ⟨?_, ?_, ?_, ?_, ?_⟩
  · intro a m retry rv e r sl rep h
    cases a with
    | success resp =>
        by_cases hid : hasId resp
        · simp only [stepIter] at h
          rw [if_pos hid] at h
          rw [afterTry_next_error _ _ _ _ _ _ _ _ _ h]
          rfl
        · simp only [stepIter] at h
          rw [if_neg hid] at h
          exact StepResult.noConfusion h
    | progress =>
        simp only [stepIter] at h
        rw [afterTry_next_error _ _ _ _ _ _ _ _ _ h]
        rfl
    | httpError s =>
        by_cases hs : s ∈ RETRIABLE_STATUS_CODES
        · simp only [stepIter] at h
          rw [if_pos hs] at h
          rw [afterTry_next_error _ _ _ _ _ _ _ _ _ h]
          rfl
        · simp only [stepIter] at h
          rw [if_neg hs] at h
          exact StepResult.noConfusion h
    | transportError =>
        simp only [stepIter] at h
        rw [afterTry_next_error _ _ _ _ _ _ _ _ _ h]
        rfl
  · intro m retry rv hr
    have hlt : ¬ MAX_RETRIES < retry + 1 := by omega
    simp [stepIter, afterTry, hlt]
  · intro resp m retry rv hid hr
    have hlt : ¬ MAX_RETRIES < retry + 1 := by omega
    simp [stepIter, afterTry, hid, hlt]
  · intro resp m rv hid
    simp [stepIter, afterTry, hid, Nat.lt_succ_self]
  · intro rand
    exact ⟨rfl, rfl, rfl⟩

/-- C2 witness: with `error` set and `retry = 0`, a success-with-id
iteration still sleeps once with cap `2^1`; with `error` set and
`retry = MAX_RETRIES`, the same success iteration exits fatally after
reporting the id. -/
theorem error_never_reset_success_still_backs_off_w :
    stepIter (ChunkOutcome.success [("id", "v1")]) (some ErrMsg.transport) 0
        (0:ℚ) =
      StepResult.done (UploadResult.returned [("id", "v1")])
        [⟨0 + 1, (0:ℚ) * 2 ^ (0 + 1)⟩] [idOf [("id", "v1")]] ∧
    stepIter (ChunkOutcome.success [("id", "v1")]) (some ErrMsg.transport)
        MAX_RETRIES (0:ℚ) =
      StepResult.done UploadResult.exitRetriesExhausted []
        [idOf [("id", "v1")]] :=
  ⟨error_never_reset_success_still_backs_off.2.2.1 [("id", "v1")]
      ErrMsg.transport 0 (0:ℚ) (by decide) (by decide),
   error_never_reset_success_still_backs_off.2.2.2.1 [("id", "v1")]
      ErrMsg.transport (0:ℚ) (by decide)⟩

/-- C3: when every supplied chunk attempt is transient-retriable, the
driver makes exactly `MAX_RETRIES + 1` attempts and then exits fatally with
the retries-exhausted message, performing no further attempts even though
more attempts were available. -/
theorem all_transient_fails_after_max_retries_plus_one :
    ∀ (attempts : List ChunkOutcome) (rand : Nat → ℚ),
      (∀ a ∈ attempts, transientOutcome a = true) →
      MAX_RETRIES + 1 ≤ attempts.length →
      (resumable_upload attempts rand).1 =
        UploadResult.exitRetriesExhausted ∧
      (resumable_upload attempts rand).2.attempts = MAX_RETRIES + 1 := by
  intro attempts rand h hlen
  have hgo := resumable_upload_go_transient rand attempts h none 0 0
    (by omega) (by omega)
  refine ⟨hgo.1, ?_⟩
  rw [show resumable_upload attempts rand =
    resumable_upload_go rand attempts none 0 0 from rfl, hgo.2]
  omega

/-- C3 witness: eleven consecutive transport errors exhaust the retries
after exactly eleven attempts. -/
theorem all_transient_fails_after_max_retries_plus_one_w :
    (resumable_upload (List.replicate 11 ChunkOutcome.transportError)
        (fun _ => (0:ℚ))).1 = UploadResult.exitRetriesExhausted ∧
    (resumable_upload (List.replicate 11 ChunkOutcome.transportError)
        (fun _ => (0:ℚ))).2.attempts = MAX_RETRIES + 1 :=
  all_transient_fails_after_max_retries_plus_one
    (List.replicate 11 ChunkOutcome.transportError) (fun _ => (0:ℚ))
    (by decide) (by decide)

/-- C4: an `HttpError` whose status is in `RETRIABLE_STATUS_CODES` records
a transient error, sleeps once with cap `2^(retry+1)` and continues the
loop on the remaining attempts (when the retry budget is not yet
exhausted); an `HttpError` with any other status is re-raised from that
attempt at once, with no sleep in that iteration and no further attempts. -/
theorem retriable_http_retries_other_http_raises :
    ∀ (s : Nat) (rest : List ChunkOutcome) (e : Option ErrMsg)
      (retry k : Nat) (rand : Nat → ℚ),
      (s ∈ RETRIABLE_STATUS_CODES → retry < MAX_RETRIES →
        resumable_upload_go rand (ChunkOutcome.httpError s :: rest) e retry
            k =
          ((resumable_upload_go rand rest (some (ErrMsg.http s)) (retry + 1)
              (k + 1)).1,
           ⟨(resumable_upload_go rand rest (some (ErrMsg.http s)) (retry + 1)
               (k + 1)).2.attempts + 1,
            ⟨retry + 1, rand k * 2 ^ (retry + 1)⟩ ::
              (resumable_upload_go rand rest (some (ErrMsg.http s))
                (retry + 1) (k + 1)).2.sleeps,
            (resumable_upload_go rand rest (some (ErrMsg.http s)) (retry + 1)
              (k + 1)).2.reported⟩)) ∧
      (s ∉ RETRIABLE_STATUS_CODES →
        resumable_upload_go rand (ChunkOutcome.httpError s :: rest) e retry
            k =
          (UploadResult.raised s, ⟨1, [], []⟩)) := by
  intro s rest e retry k rand
  constructor
  · intro hs hr
    have hlt : ¬ MAX_RETRIES < retry + 1 := by omega
    have hstep : stepIter (ChunkOutcome.httpError s) e retry (rand k) =
        StepResult.next (some (ErrMsg.http s)) (retry + 1)
          [⟨retry + 1, rand k * 2 ^ (retry + 1)⟩] [] := by
      simp [stepIter, afterTry, hs, hlt]
    simp [resumable_upload_go, hstep]
  · intro hs
    have hstep : stepIter (ChunkOutcome.httpError s) e retry (rand k) =
        StepResult.done (UploadResult.raised s) [] [] := by
      simp [stepIter, hs]
    simp [resumable_upload_go, hstep]

/-- C4 witness: a 503 at retry 0 backs off once with cap `2^1` and
continues; a 404 is raised at once with no sleep. -/
theorem retriable_http_retries_other_http_raises_w :
    resumable_upload_go (fun _ => (0:ℚ)) [ChunkOutcome.httpError 503] none 0
        0 =
      (UploadResult.noMoreAttempts, ⟨1, [⟨1, (0:ℚ) * 2 ^ 1⟩], []⟩) ∧
    resumable_upload_go (fun _ => (0:ℚ)) [ChunkOutcome.httpError 404] none 0
        0 =
      (UploadResult.raised 404, ⟨1, [], []⟩) :=
  ⟨(retriable_http_retries_other_http_raises 503 [] none 0 0
      (fun _ => (0:ℚ))).1 (by decide) (by decide),
   (retriable_http_retries_other_http_raises 404 [] none 0 0
      (fun _ => (0:ℚ))).2 (by decide)⟩

/-- C5: a terminal response without an `'id'` field makes the driver exit
fatally at once: one attempt, no sleep, no retry, whatever the current
`error` state, retry count and remaining attempts. -/
theorem terminal_response_without_id_fatal :
    ∀ (resp : Response) (rest : List ChunkOutcome) (e : Option ErrMsg)
      (retry k : Nat) (rand : Nat → ℚ), hasId resp = false →
      resumable_upload_go rand (ChunkOutcome.success resp :: rest) e retry
          k =
        (UploadResult.exitUnexpected resp, ⟨1, [], []⟩) := by
  intro resp rest e retry k rand h
  have hstep : stepIter (ChunkOutcome.success resp) e retry (rand k) =
      StepResult.done (UploadResult.exitUnexpected resp) [] [] := by
    simp [stepIter, h]
  simp [resumable_upload_go, hstep]

/-- C5 witness: a malformed terminal response at retry 7 with an error
pending and more attempts available still halts immediately. -/
theorem terminal_response_without_id_fatal_w :
    resumable_upload_go (fun _ => (0:ℚ))
        [ChunkOutcome.success [("status", "failed")], ChunkOutcome.progress]
        (some ErrMsg.transport) 7 0 =
      (UploadResult.exitUnexpected [("status", "failed")], ⟨1, [], []⟩) :=
  terminal_response_without_id_fatal [("status", "failed")]
    [ChunkOutcome.progress] (some ErrMsg.transport) 7 0 (fun _ => (0:ℚ))
    (by decide)

/-- C6: every sleep performed by one invocation of `resumable_upload` has a
retry count `r` with `1 ≤ r ≤ MAX_RETRIES` and a duration in `[0, 2^r)`,
provided each `random.random()` value lies in `[0, 1)`. -/
theorem sleep_duration_within_exponential_cap :
    ∀ (attempts : List ChunkOutcome) (rand : Nat → ℚ),
      (∀ j, 0 ≤ rand j ∧ rand j < 1) →
      ∀ sl ∈ (resumable_upload attempts rand).2.sleeps,
        1 ≤ sl.retry ∧ sl.retry ≤ MAX_RETRIES ∧
        0 ≤ sl.seconds ∧ sl.seconds < 2 ^ sl.retry := by
  intro attempts rand hrand
  exact resumable_upload_go_sleep_bound rand hrand attempts none 0 0

/-- C6 witness: the single sleep of a run over one transport error, with
the random source returning 0, satisfies the bounds. -/
theorem sleep_duration_within_exponential_cap_w :
    1 ≤ (⟨1, (0:ℚ) * 2 ^ 1⟩ : SleepEvent).retry ∧
    (⟨1, (0:ℚ) * 2 ^ 1⟩ : SleepEvent).retry ≤ MAX_RETRIES ∧
    0 ≤ (⟨1, (0:ℚ) * 2 ^ 1⟩ : SleepEvent).seconds ∧
    (⟨1, (0:ℚ) * 2 ^ 1⟩ : SleepEvent).seconds <
      2 ^ (⟨1, (0:ℚ) * 2 ^ 1⟩ : SleepEvent).retry :=
  sleep_duration_within_exponential_cap [ChunkOutcome.transportError]
    (fun _ => (0:ℚ)) (fun _ => ⟨le_refl 0, zero_lt_one⟩)
    ⟨1, (0:ℚ) * 2 ^ 1⟩ (List.Mem.head _)

/-- C7: `"en:captions.srt"` parses to `("en", "EN", "captions.srt")` (track
name defaults to the uppercased language code), `"es:Spanish:spanish.srt"`
parses to `("es", "Spanish", "spanish.srt")`, and the colon-free
`"badformat"` parses to `none`. -/
theorem parse_caption_argument_examples :
    parse_caption_argument "en:captions.srt" =
      some ("en", "EN", "captions.srt") ∧
    parse_caption_argument "es:Spanish:spanish.srt" =
      some ("es", "Spanish", "spanish.srt") ∧
    parse_caption_argument "badformat" = none := by
  decide

/-- C8: the caption batch loop is per-item: the reported tally is the
count of entries that parse, exist and upload, over the total number of
caption arguments, so one failing entry never affects the others; in the
concrete 3-argument batch with one missing file and two successful uploads
the summary is 2 out of 3. -/
theorem caption_batch_tally :
    (∀ (fileExists : String → Bool)
        (uploadOk : String → String → String → Bool)
        (captions : List String),
        captionBatch fileExists uploadOk captions =
          (captions.countP (captionSuccess fileExists uploadOk),
           captions.length)) ∧
    captionBatch (fun p => p ≠ "missing.srt") (fun _ _ _ => true)
      ["en:a.srt", "fr:missing.srt", "es:c.srt"] = (2, 3) := by
  constructor
  · intro fe up caps
    unfold captionBatch
    rw [captionBatch_foldl_count fe up caps 0, Nat.zero_add]
  · decide

/-- C9: every argument containing at least one colon parses to a triple,
never `none`; since the split is limited to two separators, extra colons
stay in the file-path component: `"en:Name:a:b.srt"` parses to
`("en", "Name", "a:b.srt")`. -/
theorem parse_with_colon_total_extra_colons_kept :
    (∀ s : String, ':' ∈ s.data →
      (parse_caption_argument s).isSome = true) ∧
    parse_caption_argument "en:Name:a:b.srt" =
      some ("en", "Name", "a:b.srt") :=
  ⟨parse_caption_argument_isSome, by decide⟩

/-- C9 witness: a two-part argument parses to a triple. -/
theorem parse_with_colon_total_extra_colons_kept_w :
    (parse_caption_argument "x:y").isSome = true :=
  parse_with_colon_total_extra_colons_kept.1 "x:y" (by decide)

/-- C10: `upload_caption` returns a boolean on every input: `False` on any
exception raised inside its `try` block (an `HttpError` or anything else,
e.g. a missing local file), and `True` exactly when the insert executed and
both `response['snippet']['name']` and `response['id']` are present. -/
theorem upload_caption_interface_total :
    (∀ e : PyExc, upload_caption (Except.error e) = false) ∧
    (∀ resp : CaptionResponse,
        upload_caption (Except.ok resp) =
          ((resp.snippet.bind fun sn => sn.lookup "name").isSome &&
            resp.id.isSome)) := by
  constructor
  · intro e
    cases e <;> rfl
  · intro resp
    unfold upload_caption
    rcases hn : resp.snippet.bind fun sn => sn.lookup "name" with _ | n <;>
      rcases hi : resp.id with _ | i <;> simp [hn, hi]
